import Mathlib

/-
Verification of the praxis-move-explainer game-analysis pipeline.

The embedding follows the Python source:
  * src/schemas/models.py        — the data model (dataclasses become structures);
  * src/engines/stockfish_engine.py — score normalization, blunder test, close();
  * src/core/game_analyzer.py    — the analyze_pgn move loop;
  * src/llms/openai_explainer.py — the _parse_response section parser.

External collaborators (python-chess board operations, PGN parsing, the engine
process, the LLM backend) are modelled as parameters: the pipeline only calls
them through a fixed interface.  Centipawn scores are modelled as Int: every
value the program puts in them is an integer number of centipawns, and all the
arithmetic involved is addition, subtraction, negation and comparison, which
agree with exact integer arithmetic on these values.
-/

namespace Praxis

/-- Board-state record (src/schemas/models.py, `Position`). -/
structure Position where
  fen : String
  move_number : Int
  player_color : String
  deriving DecidableEq

/-- Engine evaluation record (src/schemas/models.py, `Evaluation`). -/
structure Evaluation where
  score_cp : Int
  best_move_uci : String
  best_move_san : String
  deriving DecidableEq

/-- Detected mistake record (src/schemas/models.py, `Mistake`). -/
structure Mistake where
  position_before_move : Position
  position_after_move : Position
  move_played : String
  evaluation_before : Evaluation
  evaluation_after : Evaluation
  eval_drop_cp : Int
  deriving DecidableEq

/-- Four-field explanation record (src/schemas/models.py, `Explanation`). -/
structure Explanation where
  why_good : String
  why_failed : String
  concept_involved : String
  typical_pattern : String
  deriving DecidableEq

/-- Pairing of one Mistake with one Explanation (src/schemas/models.py,
`AnalyzedMistake`). -/
structure AnalyzedMistake where
  the_mistake : Mistake
  the_explanation : Explanation
  deriving DecidableEq

/-- Raw engine score as consumed by `StockfishEngine._score_to_centipawns`:
whether `score.is_mate()` holds, the value of `score.relative.mate()` (only
read in the mate branch), and the value of `score.relative.score()` (`none`
models Python `None`; only read in the non-mate branch). -/
structure EngineScore where
  isMate : Bool
  mateIn : Int
  cp : Option Int
  deriving DecidableEq

/-- `StockfishEngine._score_to_centipawns(score, turn)`
(src/engines/stockfish_engine.py).  `turn = true` is `chess.WHITE`,
`turn = false` is `chess.BLACK`.  The final `Option.getD 0` renders Python's
`return cp or 0` (`None` becomes `0`; a numeric `0` stays `0`). -/
def scoreToCentipawns (score : EngineScore) (turn : Bool) : Int :=
  let cp1 : Option Int :=
    if score.isMate then
      some (if score.mateIn > 0 then 10000 else -10000)
    else
      score.cp
  let cp2 : Option Int :=
    if turn = false then
      match cp1 with
      | some v => some (-v)
      | none => some 0
    else cp1
  cp2.getD 0

/-- `StockfishEngine.is_blunder(eval_before, eval_after, threshold)`
(src/engines/stockfish_engine.py). -/
def is_blunder (eval_before eval_after : Evaluation) (threshold : Int) : Bool :=
  let eval_drop := eval_before.score_cp - eval_after.score_cp
  decide (eval_drop ≥ threshold)

/-- State of a `StockfishEngine` wrapper: the configured path and depth, and
the engine handle (`none` models Python `self.engine = None`; the handle value
itself is opaque). -/
structure StockfishEngine where
  stockfish_path : String
  depth : Int
  engine : Option Unit
  deriving DecidableEq

/-- `StockfishEngine.close` (src/engines/stockfish_engine.py): if a handle is
present, quit it and set the field to `None`; otherwise do nothing. -/
def StockfishEngine.close (e : StockfishEngine) : StockfishEngine :=
  match e.engine with
  | some _ => { e with engine := none }
  | none => e

/-- Interface of the python-chess board operations the pipeline calls
(src/core/game_analyzer.py uses only these): side to move (`true` is
`chess.WHITE`), FEN rendering, current fullmove number, applying a move, and
rendering a move in SAN relative to the current state.  `B` is the board type
and `M` the move type; both belong to the external library. -/
structure Chess (B M : Type) where
  turn : B → Bool
  fen : B → String
  fullmove_number : B → Int
  push : B → M → B
  san : B → M → String

/-- A parsed game as `chess.pgn.read_game` returns it: the starting board
(`game.board()`) and the mainline move list (`game.mainline()` node moves). -/
structure Game (B M : Type) where
  board : B
  mainlineMoves : List M

/-- The mover string computed at the top of the loop body:
`'white' if board.turn == chess.WHITE else 'black'`. -/
def moverColor {B M : Type} (c : Chess B M) (b : B) : String :=
  if c.turn b = true then "white" else "black"

/-- The perspective normalization applied to the raw after-move evaluation
(src/core/game_analyzer.py, the `eval_after_flipped` construction): negate the
score, keep both best-move fields. -/
def flipEval (e : Evaluation) : Evaluation :=
  { score_cp := -e.score_cp
    best_move_uci := e.best_move_uci
    best_move_san := e.best_move_san }

/-- The move loop of `GameAnalyzer.analyze_pgn` (src/core/game_analyzer.py),
run from a given board over the remaining mainline moves.  Returns the emitted
`AnalyzedMistake` list together with the trace of boards passed to
`engine.evaluate`, in call order (the trace records every Evaluator
invocation). -/
def analyzeMoves {B M : Type} (c : Chess B M) (evalFn : B → Evaluation)
    (explain : Mistake → Explanation) (threshold : Int) (target_color : String) :
    B → List M → List AnalyzedMistake × List B
  | _, [] => ([], [])
  | board, move :: rest =>
    let move_color := moverColor c board
    if target_color ≠ "both" ∧ target_color ≠ move_color then
      analyzeMoves c evalFn explain threshold target_color (c.push board move) rest
    else
      let eval_before := evalFn board
      let fen_before := c.fen board
      let move_number := c.fullmove_number board
      let move_san := c.san board move
      let board2 := c.push board move
      let eval_after := evalFn board2
      let eval_after_flipped := flipEval eval_after
      let tail := analyzeMoves c evalFn explain threshold target_color board2 rest
      if is_blunder eval_before eval_after_flipped threshold then
        let position_before : Position := ⟨fen_before, move_number, move_color⟩
        let position_after : Position := ⟨c.fen board2, move_number, move_color⟩
        let mistake : Mistake :=
          { position_before_move := position_before
            position_after_move := position_after
            move_played := move_san
            evaluation_before := eval_before
            evaluation_after := eval_after_flipped
            eval_drop_cp := eval_before.score_cp - eval_after_flipped.score_cp }
        let am : AnalyzedMistake := ⟨mistake, explain mistake⟩
        (am :: tail.1, board :: board2 :: tail.2)
      else
        (tail.1, board :: board2 :: tail.2)

/-- `GameAnalyzer.analyze_pgn` (src/core/game_analyzer.py): parse the PGN
through the external reader; `None` raises
`ValueError("Invalid PGN: could not parse game")` before any move processing,
otherwise run the move loop from the game's starting board.  The second
component is the Evaluator-call trace (empty when parsing fails, since the
error is raised before the loop). -/
def analyzePgn {B M : Type} (c : Chess B M) (read_game : String → Option (Game B M))
    (evalFn : B → Evaluation) (explain : Mistake → Explanation) (threshold : Int)
    (pgn_string : String) (target_color : String) :
    Except String (List AnalyzedMistake) × List B :=
  match read_game pgn_string with
  | none => (Except.error "Invalid PGN: could not parse game", [])
  | some game =>
    let r := analyzeMoves c evalFn explain threshold target_color game.board game.mainlineMoves
    (Except.ok r.1, r.2)

/-- Number of moves of a run that pass the color filter, with the same
branch condition as the loop itself; each such move costs exactly two
Evaluator calls (before and after). -/
def includedMoveCount {B M : Type} (c : Chess B M) (target_color : String) :
    B → List M → Nat
  | _, [] => 0
  | board, move :: rest =>
    if target_color ≠ "both" ∧ target_color ≠ moverColor c board then
      includedMoveCount c target_color (c.push board move) rest
    else
      1 + includedMoveCount c target_color (c.push board move) rest

/-- Concrete two-state board for witnesses: the board is just the side to
move, a move flips it. -/
def toyChess : Chess Bool Unit :=
  { turn := fun b => b
    fen := fun b => if b then "w" else "b"
    fullmove_number := fun _ => 1
    push := fun b _ => !b
    san := fun _ _ => "m" }

/-- Concrete deterministic evaluator for witnesses: +50 with white to move,
+80 with black to move (so the flipped after-score of a white move is −80 and
the drop is 130 cp). -/
def toyEval : Bool → Evaluation :=
  fun b => if b then ⟨50, "", ""⟩ else ⟨80, "", ""⟩

/-- Concrete explainer stub for witnesses. -/
def toyExplain : Mistake → Explanation :=
  fun _ => ⟨"", "", "", ""⟩

/-- Concrete one-move game for witnesses: white to move, one mainline move. -/
def toyGame : Game Bool Unit :=
  ⟨true, [()]⟩

/-- Concrete parser for witnesses: every string parses to `toyGame`. -/
def toyReadGame : String → Option (Game Bool Unit) :=
  fun _ => some toyGame

/-- The single AnalyzedMistake the toy run emits at threshold 100. -/
def toyAm : AnalyzedMistake :=
  { the_mistake :=
      { position_before_move := ⟨"w", 1, "white"⟩
        position_after_move := ⟨"b", 1, "white"⟩
        move_played := "m"
        evaluation_before := ⟨50, "", ""⟩
        evaluation_after := ⟨-80, "", ""⟩
        eval_drop_cp := 130 }
    the_explanation := ⟨"", "", "", ""⟩ }

/-- Python `str.strip` whitespace test for the characters the responses can
contain (space, tab, newline, carriage return, vertical tab, form feed). -/
def pyIsSpace (c : Char) : Bool :=
  c = ' ' ∨ c = '\t' ∨ c = '\n' ∨ c = '\r' ∨ c = '\x0b' ∨ c = '\x0c'

/-- Python `str.strip()` on a character list: drop whitespace from both
ends. -/
def pyStrip (s : List Char) : List Char :=
  ((s.dropWhile pyIsSpace).reverse.dropWhile pyIsSpace).reverse

/-- Python `str.split('\n')` on a character list: split at every newline,
keeping empty pieces (the empty input gives one empty piece). -/
def pySplitLines : List Char → List (List Char)
  | [] => [[]]
  | c :: rest =>
    let r := pySplitLines rest
    if c = '\n' then [] :: r
    else
      match r with
      | [] => [[c]]
      | l :: ls => (c :: l) :: ls

/-- Python `str.upper()` on one character, for the ASCII range the section
labels use. -/
def pyUpperChar (c : Char) : Char :=
  if 'a' ≤ c ∧ c ≤ 'z' then Char.ofNat (c.toNat - 32) else c

/-- Whether the first list is an initial segment of the second. -/
def startsWith : List Char → List Char → Bool
  | [], _ => true
  | _ :: _, [] => false
  | p :: ps, c :: cs => p = c ∧ startsWith ps cs

/-- Python's `needle in haystack` substring test on character lists. -/
def containsSub (needle : List Char) : List Char → Bool
  | [] => startsWith needle []
  | c :: cs => startsWith needle (c :: cs) ∨ containsSub needle cs

/-- The four keys of the `sections` dict in
`OpenAIExplainer._parse_response`. -/
inductive SectionKey
  | whyLookedGood
  | whyFailed
  | conceptInvolved
  | typicalPattern
  deriving DecidableEq

/-- The `sections` dict of `_parse_response`: accumulated text per key. -/
structure Sections where
  why_looked_good : List Char
  why_failed : List Char
  concept_involved : List Char
  typical_pattern : List Char
  deriving DecidableEq

/-- Label text `_parse_response` looks for (in the uppercased line) to switch
to each section. -/
def sectionLabel : SectionKey → List Char
  | .whyLookedGood => "WHY IT LOOKED GOOD".data
  | .whyFailed => "WHY IT FAILED".data
  | .conceptInvolved => "CONCEPT".data
  | .typicalPattern => "PATTERN".data

/-- Accumulated text of one section. -/
def sectionField (s : Sections) : SectionKey → List Char
  | .whyLookedGood => s.why_looked_good
  | .whyFailed => s.why_failed
  | .conceptInvolved => s.concept_involved
  | .typicalPattern => s.typical_pattern

/-- One content line added to a section's accumulated text: Python
`sections[k] += " " + line` when nonempty, `sections[k] = line` when empty. -/
def appendField (old line : List Char) : List Char :=
  if old = [] then line else old ++ (' ' :: line)

/-- Update of the `sections` dict for a content line under the current
section key. -/
def appendLine (s : Sections) (k : SectionKey) (line : List Char) : Sections :=
  match k with
  | .whyLookedGood => { s with why_looked_good := appendField s.why_looked_good line }
  | .whyFailed => { s with why_failed := appendField s.why_failed line }
  | .conceptInvolved => { s with concept_involved := appendField s.concept_involved line }
  | .typicalPattern => { s with typical_pattern := appendField s.typical_pattern line }

/-- One iteration of the `for line in lines` loop of `_parse_response`: strip
the line, skip it when empty, switch the current section when it contains one
of the four labels (checked in source order against the uppercased line), and
otherwise append it to the current section when one is set. -/
def parseStep (st : Sections × Option SectionKey) (line0 : List Char) :
    Sections × Option SectionKey :=
  let line := pyStrip line0
  if line = [] then st
  else if containsSub "WHY IT LOOKED GOOD".data (line.map pyUpperChar) then
    (st.1, some .whyLookedGood)
  else if containsSub "WHY IT FAILED".data (line.map pyUpperChar) then
    (st.1, some .whyFailed)
  else if containsSub "CONCEPT".data (line.map pyUpperChar) then
    (st.1, some .conceptInvolved)
  else if containsSub "PATTERN".data (line.map pyUpperChar) then
    (st.1, some .typicalPattern)
  else
    match st.2 with
    | some k => (appendLine st.1 k line, st.2)
    | none => st

/-- `OpenAIExplainer._parse_response` (src/llms/openai_explainer.py): strip
the response, split it into lines, run the section loop from empty sections
and no current section, and pack the four accumulated texts into an
Explanation. -/
def parseResponse (response : String) : Explanation :=
  let lines := pySplitLines (pyStrip response.data)
  let st := List.foldl parseStep (⟨[], [], [], []⟩, none) lines
  { why_good := String.mk st.1.why_looked_good
    why_failed := String.mk st.1.why_failed
    concept_involved := String.mk st.1.concept_involved
    typical_pattern := String.mk st.1.typical_pattern }

/-- C3: for every non-mate engine score carrying a numeric raw value,
`_score_to_centipawns` stores the raw value unchanged when the side to move is
white and its exact negation when the side to move is black. -/
theorem score_to_centipawns_nonmate (m raw : Int) (turn : Bool) :
    scoreToCentipawns ⟨false, m, some raw⟩ turn =
      if turn = true then raw else -raw := by
  cases turn <;> simp [scoreToCentipawns]

/-- C4: for every forced-mate engine score, `_score_to_centipawns` stores a
sentinel of magnitude exactly 10000 centipawns; its sign is the sign of the
mate (positive when `mate_in > 0`) flipped when the side to move is black. -/
theorem score_to_centipawns_mate (mateIn : Int) (cp0 : Option Int) (turn : Bool) :
    (scoreToCentipawns ⟨true, mateIn, cp0⟩ turn = 10000 ∨
      scoreToCentipawns ⟨true, mateIn, cp0⟩ turn = -10000) ∧
    scoreToCentipawns ⟨true, mateIn, cp0⟩ turn =
      (if 0 < mateIn then (10000 : Int) else -10000) *
        (if turn = true then 1 else -1) := by
  cases turn <;> by_cases h : 0 < mateIn <;>
    simp [scoreToCentipawns, h]

/-- C5: `is_blunder` returns true exactly when the drop
`eval_before.score_cp - eval_after.score_cp` is at least the threshold, and it
is monotone in the threshold: any blunder at a higher threshold is a blunder
at a lower one. -/
theorem is_blunder_spec (eval_before eval_after : Evaluation) (threshold : Int) :
    (is_blunder eval_before eval_after threshold = true ↔
      eval_before.score_cp - eval_after.score_cp ≥ threshold) ∧
    (∀ t2 : Int, threshold ≤ t2 →
      is_blunder eval_before eval_after t2 = true →
      is_blunder eval_before eval_after threshold = true) := by
  constructor
  · simp [is_blunder]
  · intro t2 h1 h2
    simp only [is_blunder, decide_eq_true_eq] at h2 ⊢
    omega

/-- Witness for C5 at the spec's concrete scenario: before +50, normalized
after −80, so the 130 cp drop is a blunder at threshold 100 (derived from the
blunder at threshold 130 by monotonicity). -/
theorem is_blunder_spec_witness :
    is_blunder ⟨50, "", ""⟩ ⟨-80, "", ""⟩ 100 = true :=
  (is_blunder_spec ⟨50, "", ""⟩ ⟨-80, "", ""⟩ 100).2 130 (by decide) (by decide)

/-- C9: `close` is idempotent and safe in every state: closing twice equals
closing once, after any close the handle is `None`, and closing a
never-started session (handle already `None`) changes nothing. -/
theorem close_idempotent (e : StockfishEngine) :
    StockfishEngine.close (StockfishEngine.close e) = StockfishEngine.close e ∧
    (StockfishEngine.close e).engine = none ∧
    StockfishEngine.close { e with engine := none } = { e with engine := none } := by
  cases e with
  | mk p d eng => cases eng <;> simp [StockfishEngine.close]

/-- Every AnalyzedMistake the move loop emits arises from some board `bb` and
move `mm` encountered during the run: its Mistake record is built exactly as
in the source from the evaluation of `bb` and the flipped evaluation of `bb`
after `mm`, and the blunder test passed on that pair. -/
theorem analyzeMoves_mem_shape {B M : Type} (c : Chess B M) (evalFn : B → Evaluation)
    (explain : Mistake → Explanation) (threshold : Int) (target_color : String) :
    ∀ (moves : List M) (board : B) (am : AnalyzedMistake),
      am ∈ (analyzeMoves c evalFn explain threshold target_color board moves).1 →
      ∃ (bb : B) (mm : M),
        am.the_mistake =
          { position_before_move := ⟨c.fen bb, c.fullmove_number bb, moverColor c bb⟩
            position_after_move :=
              ⟨c.fen (c.push bb mm), c.fullmove_number bb, moverColor c bb⟩
            move_played := c.san bb mm
            evaluation_before := evalFn bb
            evaluation_after := flipEval (evalFn (c.push bb mm))
            eval_drop_cp :=
              (evalFn bb).score_cp - (flipEval (evalFn (c.push bb mm))).score_cp } ∧
        is_blunder (evalFn bb) (flipEval (evalFn (c.push bb mm))) threshold = true := by
  intro moves
  induction moves with
  | nil =>
    intro board am h
    simp [analyzeMoves] at h
  | cons move rest ih =>
    intro board am h
    simp only [analyzeMoves] at h
    split at h
    · exact ih _ _ h
    · split at h
      · rcases List.mem_cons.mp h with h' | h'
        · exact ⟨board, move, by rw [h'], by assumption⟩
        · exact ih _ _ h'
      · exact ih _ _ h

/-- Lifting of `analyzeMoves_mem_shape` to a successful `analyze_pgn` run. -/
theorem analyzePgn_mem_shape {B M : Type} (c : Chess B M)
    (read_game : String → Option (Game B M)) (evalFn : B → Evaluation)
    (explain : Mistake → Explanation) (threshold : Int)
    (pgn_string target_color : String) (lst : List AnalyzedMistake) (trace : List B)
    (hres : analyzePgn c read_game evalFn explain threshold pgn_string target_color =
      (Except.ok lst, trace))
    (am : AnalyzedMistake) (ham : am ∈ lst) :
    ∃ (bb : B) (mm : M),
      am.the_mistake =
        { position_before_move := ⟨c.fen bb, c.fullmove_number bb, moverColor c bb⟩
          position_after_move :=
            ⟨c.fen (c.push bb mm), c.fullmove_number bb, moverColor c bb⟩
          move_played := c.san bb mm
          evaluation_before := evalFn bb
          evaluation_after := flipEval (evalFn (c.push bb mm))
          eval_drop_cp :=
            (evalFn bb).score_cp - (flipEval (evalFn (c.push bb mm))).score_cp } ∧
      is_blunder (evalFn bb) (flipEval (evalFn (c.push bb mm))) threshold = true := by
  cases hrg : read_game pgn_string with
  | none => simp [analyzePgn, hrg] at hres
  | some game =>
    simp only [analyzePgn, hrg, Prod.mk.injEq, Except.ok.injEq] at hres
    obtain ⟨hlst, htr⟩ := hres
    subst hlst
    exact analyzeMoves_mem_shape c evalFn explain threshold target_color
      game.mainlineMoves game.board am ham

/-- C1: every Mistake emitted by `analyze_pgn` stores `eval_drop_cp` equal to
`evaluation_before.score_cp - evaluation_after.score_cp` (with
`evaluation_after` the perspective-normalized one), and that drop is at least
the configured blunder threshold of the run. -/
theorem mistake_record_consistency {B M : Type} (c : Chess B M)
    (read_game : String → Option (Game B M)) (evalFn : B → Evaluation)
    (explain : Mistake → Explanation) (threshold : Int)
    (pgn_string target_color : String) (lst : List AnalyzedMistake) (trace : List B)
    (hres : analyzePgn c read_game evalFn explain threshold pgn_string target_color =
      (Except.ok lst, trace))
    (am : AnalyzedMistake) (ham : am ∈ lst) :
    am.the_mistake.eval_drop_cp =
      am.the_mistake.evaluation_before.score_cp -
        am.the_mistake.evaluation_after.score_cp ∧
    am.the_mistake.eval_drop_cp ≥ threshold := by
  obtain ⟨bb, mm, hmk, hbl⟩ :=
    analyzePgn_mem_shape c read_game evalFn explain threshold pgn_string
      target_color lst trace hres am ham
  simp only [is_blunder, ge_iff_le, decide_eq_true_eq] at hbl
  constructor
  · rw [hmk]
  · rw [hmk]
    exact hbl

/-- Witness for C1: the toy one-move run at threshold 100 emits exactly
`toyAm`, whose stored drop 130 equals 50 − (−80) and is ≥ 100. -/
theorem mistake_record_consistency_witness :
    toyAm.the_mistake.eval_drop_cp =
      toyAm.the_mistake.evaluation_before.score_cp -
        toyAm.the_mistake.evaluation_after.score_cp ∧
    toyAm.the_mistake.eval_drop_cp ≥ 100 :=
  mistake_record_consistency toyChess toyReadGame toyEval toyExplain 100 "g" "both"
    [toyAm] [true, false] rfl toyAm (by simp)

/-- C2: the pipeline's perspective normalization of a raw after-move
evaluation negates its score and keeps both best-move fields unchanged, and in
every mistake emitted by `analyze_pgn` the stored `evaluation_after` is
exactly this normalization of the raw evaluation of the post-move board,
while `evaluation_before` is the raw evaluation of the pre-move board. -/
theorem eval_after_normalization {B M : Type} (c : Chess B M)
    (read_game : String → Option (Game B M)) (evalFn : B → Evaluation)
    (explain : Mistake → Explanation) (threshold : Int)
    (pgn_string target_color : String) (lst : List AnalyzedMistake) (trace : List B)
    (hres : analyzePgn c read_game evalFn explain threshold pgn_string target_color =
      (Except.ok lst, trace))
    (am : AnalyzedMistake) (ham : am ∈ lst) :
    (∀ e : Evaluation, flipEval e =
      { score_cp := -e.score_cp
        best_move_uci := e.best_move_uci
        best_move_san := e.best_move_san }) ∧
    ∃ (bb : B) (mm : M),
      am.the_mistake.evaluation_before = evalFn bb ∧
      am.the_mistake.evaluation_after = flipEval (evalFn (c.push bb mm)) ∧
      am.the_mistake.evaluation_after.score_cp =
        -(evalFn (c.push bb mm)).score_cp ∧
      am.the_mistake.evaluation_after.best_move_uci =
        (evalFn (c.push bb mm)).best_move_uci ∧
      am.the_mistake.evaluation_after.best_move_san =
        (evalFn (c.push bb mm)).best_move_san := by
  obtain ⟨bb, mm, hmk, hbl⟩ :=
    analyzePgn_mem_shape c read_game evalFn explain threshold pgn_string
      target_color lst trace hres am ham
  refine ⟨fun e => rfl, bb, mm, ?_, ?_, ?_, ?_, ?_⟩ <;> rw [hmk] <;>
    simp [flipEval]

/-- Witness for C2 on the toy run: the emitted mistake's after-evaluation is
the flipped raw evaluation of the post-move board. -/
theorem eval_after_normalization_witness :
    (∀ e : Evaluation, flipEval e =
      { score_cp := -e.score_cp
        best_move_uci := e.best_move_uci
        best_move_san := e.best_move_san }) ∧
    ∃ (bb : Bool) (mm : Unit),
      toyAm.the_mistake.evaluation_before = toyEval bb ∧
      toyAm.the_mistake.evaluation_after = flipEval (toyEval (toyChess.push bb mm)) ∧
      toyAm.the_mistake.evaluation_after.score_cp =
        -(toyEval (toyChess.push bb mm)).score_cp ∧
      toyAm.the_mistake.evaluation_after.best_move_uci =
        (toyEval (toyChess.push bb mm)).best_move_uci ∧
      toyAm.the_mistake.evaluation_after.best_move_san =
        (toyEval (toyChess.push bb mm)).best_move_san :=
  eval_after_normalization toyChess toyReadGame toyEval toyExplain 100 "g" "both"
    [toyAm] [true, false] rfl toyAm (by simp)

/-- C10: in every emitted Mistake the after-move Position carries the same
move number and the same player color as the before-move Position — both come
from the pre-move board's fullmove number and mover — while the two records'
FEN fields render the pre-move and post-move boards respectively. -/
theorem position_records_share_mover {B M : Type} (c : Chess B M)
    (read_game : String → Option (Game B M)) (evalFn : B → Evaluation)
    (explain : Mistake → Explanation) (threshold : Int)
    (pgn_string target_color : String) (lst : List AnalyzedMistake) (trace : List B)
    (hres : analyzePgn c read_game evalFn explain threshold pgn_string target_color =
      (Except.ok lst, trace))
    (am : AnalyzedMistake) (ham : am ∈ lst) :
    am.the_mistake.position_after_move.move_number =
      am.the_mistake.position_before_move.move_number ∧
    am.the_mistake.position_after_move.player_color =
      am.the_mistake.position_before_move.player_color ∧
    ∃ (bb : B) (mm : M),
      am.the_mistake.position_before_move.move_number = c.fullmove_number bb ∧
      am.the_mistake.position_before_move.player_color = moverColor c bb ∧
      am.the_mistake.position_before_move.fen = c.fen bb ∧
      am.the_mistake.position_after_move.fen = c.fen (c.push bb mm) := by
  obtain ⟨bb, mm, hmk, hbl⟩ :=
    analyzePgn_mem_shape c read_game evalFn explain threshold pgn_string
      target_color lst trace hres am ham
  refine ⟨?_, ?_, bb, mm, ?_, ?_, ?_, ?_⟩ <;> rw [hmk]

/-- Witness for C10 on the toy run: both Position records of `toyAm` carry
move number 1 and player color white. -/
theorem position_records_share_mover_witness :
    toyAm.the_mistake.position_after_move.move_number =
      toyAm.the_mistake.position_before_move.move_number ∧
    toyAm.the_mistake.position_after_move.player_color =
      toyAm.the_mistake.position_before_move.player_color ∧
    ∃ (bb : Bool) (mm : Unit),
      toyAm.the_mistake.position_before_move.move_number =
        toyChess.fullmove_number bb ∧
      toyAm.the_mistake.position_before_move.player_color = moverColor toyChess bb ∧
      toyAm.the_mistake.position_before_move.fen = toyChess.fen bb ∧
      toyAm.the_mistake.position_after_move.fen =
        toyChess.fen (toyChess.push bb mm) :=
  position_records_share_mover toyChess toyReadGame toyEval toyExplain 100 "g" "both"
    [toyAm] [true, false] rfl toyAm (by simp)

/-- C7: when the PGN reader yields no game, `analyze_pgn` raises the
invalid-input error with an empty Evaluator trace — no evaluation happens and
no partial mistake list is produced; when the reader yields a game with zero
mainline moves the run returns an empty mistake list, not an error. -/
theorem invalid_pgn_before_analysis {B M : Type} (c : Chess B M)
    (read_game : String → Option (Game B M)) (evalFn : B → Evaluation)
    (explain : Mistake → Explanation) (threshold : Int)
    (pgn_string target_color : String) :
    (read_game pgn_string = none →
      analyzePgn c read_game evalFn explain threshold pgn_string target_color =
        (Except.error "Invalid PGN: could not parse game", [])) ∧
    (∀ g : Game B M, read_game pgn_string = some g → g.mainlineMoves = [] →
      analyzePgn c read_game evalFn explain threshold pgn_string target_color =
        (Except.ok [], [])) := by
  constructor
  · intro h
    simp [analyzePgn, h]
  · intro g hg hm
    simp [analyzePgn, hg, hm, analyzeMoves]

/-- Witness for C7: a reader failing on the empty string gives the
invalid-PGN error and an empty trace, and a parsed zero-move game gives an
empty result. -/
theorem invalid_pgn_before_analysis_witness :
    analyzePgn toyChess (fun _ => none) toyEval toyExplain 100 "" "both" =
      (Except.error "Invalid PGN: could not parse game", ([] : List Bool)) ∧
    analyzePgn toyChess (fun _ => some ⟨true, []⟩) toyEval toyExplain 100 "x" "both" =
      (Except.ok [], ([] : List Bool)) :=
  ⟨(invalid_pgn_before_analysis toyChess (fun _ => none) toyEval toyExplain
      100 "" "both").1 rfl,
   (invalid_pgn_before_analysis toyChess (fun _ => some ⟨true, []⟩) toyEval toyExplain
      100 "x" "both").2 ⟨true, []⟩ rfl rfl⟩

/-- Mistakes of a color-restricted run all carry the requested color. -/
theorem analyzeMoves_color_restricted {B M : Type} (c : Chess B M)
    (evalFn : B → Evaluation) (explain : Mistake → Explanation) (threshold : Int)
    (tc : String) (htc : tc ≠ "both") :
    ∀ (moves : List M) (board : B) (am : AnalyzedMistake),
      am ∈ (analyzeMoves c evalFn explain threshold tc board moves).1 →
      am.the_mistake.position_before_move.player_color = tc ∧
      am.the_mistake.position_after_move.player_color = tc := by
  intro moves
  induction moves with
  | nil =>
    intro board am h
    simp [analyzeMoves] at h
  | cons move rest ih =>
    intro board am h
    simp only [analyzeMoves] at h
    split at h
    · exact ih _ _ h
    · rename_i hcond
      have heq : tc = moverColor c board := by
        by_contra hne
        exact hcond ⟨htc, hne⟩
      split at h
      · rcases List.mem_cons.mp h with h' | h'
        · rw [h']
          exact ⟨heq.symm, heq.symm⟩
        · exact ih _ _ h'
      · exact ih _ _ h

/-- A color-restricted run returns exactly the matching-color subsequence of
the `both` run started from the same board over the same moves. -/
theorem analyzeMoves_restricted_eq_filter {B M : Type} (c : Chess B M)
    (evalFn : B → Evaluation) (explain : Mistake → Explanation) (threshold : Int)
    (tc : String) (htc : tc ≠ "both") :
    ∀ (moves : List M) (board : B),
      (analyzeMoves c evalFn explain threshold tc board moves).1 =
        ((analyzeMoves c evalFn explain threshold "both" board moves).1).filter
          (fun am => am.the_mistake.position_before_move.player_color == tc) := by
  intro moves
  induction moves with
  | nil =>
    intro board
    simp [analyzeMoves]
  | cons move rest ih =>
    intro board
    have h2 : ¬("both" ≠ "both" ∧ "both" ≠ moverColor c board) :=
      fun hk => hk.1 rfl
    by_cases hc : tc = moverColor c board
    · have h1 : ¬(tc ≠ "both" ∧ tc ≠ moverColor c board) :=
        fun hk => hk.2 hc
      simp only [analyzeMoves, if_neg h1, if_neg h2]
      by_cases hb : is_blunder (evalFn board)
          (flipEval (evalFn (c.push board move))) threshold = true
      · simp only [if_pos hb, List.filter_cons]
        have hkeep : (moverColor c board == tc) = true := by
          simp [hc]
        simp only [hkeep, if_pos]
        exact congrArg _ (ih (c.push board move))
      · simp only [if_neg hb]
        exact ih (c.push board move)
    · have h1 : tc ≠ "both" ∧ tc ≠ moverColor c board := ⟨htc, hc⟩
      simp only [analyzeMoves, if_pos h1, if_neg h2]
      by_cases hb : is_blunder (evalFn board)
          (flipEval (evalFn (c.push board move))) threshold = true
      · simp only [if_pos hb, List.filter_cons]
        have hdrop : (moverColor c board == tc) = false := by
          simp [BEq.beq]
          exact fun he => hc he.symm
        simp only [hdrop]
        exact ih (c.push board move)
      · simp only [if_neg hb]
        exact ih (c.push board move)

/-- The Evaluator-call trace of a run has exactly two entries per move that
passes the color filter: excluded moves cost no Evaluator call. -/
theorem analyzeMoves_trace_length {B M : Type} (c : Chess B M)
    (evalFn : B → Evaluation) (explain : Mistake → Explanation) (threshold : Int)
    (tc : String) :
    ∀ (moves : List M) (board : B),
      (analyzeMoves c evalFn explain threshold tc board moves).2.length =
        2 * includedMoveCount c tc board moves := by
  intro moves
  induction moves with
  | nil =>
    intro board
    simp [analyzeMoves, includedMoveCount]
  | cons move rest ih =>
    intro board
    simp only [analyzeMoves, includedMoveCount]
    by_cases hcond : tc ≠ "both" ∧ tc ≠ moverColor c board
    · simp only [if_pos hcond]
      exact ih _
    · simp only [if_neg hcond]
      by_cases hb : is_blunder (evalFn board)
          (flipEval (evalFn (c.push board move))) threshold = true
      · simp only [if_pos hb, List.length_cons, ih]
        omega
      · simp only [if_neg hb, List.length_cons, ih]
        omega

/-- C6: color filtering is exact and cheap: every mistake of a `white` run
carries player color white; the `white` run equals the white-mover subsequence
of the `both` run on the same game; and the Evaluator trace holds exactly two
boards per color-included move, so no Evaluator call is made for an excluded
move. -/
theorem color_filter_exact {B M : Type} (c : Chess B M) (evalFn : B → Evaluation)
    (explain : Mistake → Explanation) (threshold : Int) (board : B) (moves : List M) :
    (∀ am ∈ (analyzeMoves c evalFn explain threshold "white" board moves).1,
      am.the_mistake.position_before_move.player_color = "white" ∧
      am.the_mistake.position_after_move.player_color = "white") ∧
    (analyzeMoves c evalFn explain threshold "white" board moves).1 =
      ((analyzeMoves c evalFn explain threshold "both" board moves).1).filter
        (fun am => am.the_mistake.position_before_move.player_color == "white") ∧
    (analyzeMoves c evalFn explain threshold "white" board moves).2.length =
      2 * includedMoveCount c "white" board moves :=
  ⟨fun am ham =>
    analyzeMoves_color_restricted c evalFn explain threshold "white" (by decide)
      moves board am ham,
   analyzeMoves_restricted_eq_filter c evalFn explain threshold "white" (by decide)
      moves board,
   analyzeMoves_trace_length c evalFn explain threshold "white" moves board⟩

/-- Witness for C6: the toy one-move game analyzed with target color white
emits `toyAm`, and its player color is white. -/
theorem color_filter_exact_witness :
    toyAm.the_mistake.position_before_move.player_color = "white" ∧
    toyAm.the_mistake.position_after_move.player_color = "white" :=
  (color_filter_exact toyChess toyEval toyExplain 100 true [()]).1 toyAm (by decide)

/-- Appending a content line to one section leaves every other section's
accumulated text unchanged. -/
theorem sectionField_appendLine_ne (s : Sections) (k k' : SectionKey)
    (line : List Char) (h : k' ≠ k) :
    sectionField (appendLine s k' line) k = sectionField s k := by
  cases k <;> cases k' <;> simp_all [appendLine, sectionField]

/-- One loop iteration preserves "section `k` is empty and not current" as
long as the line does not contain `k`'s label. -/
theorem parseStep_preserves (k : SectionKey) (st : Sections × Option SectionKey)
    (line : List Char)
    (hline : containsSub (sectionLabel k) ((pyStrip line).map pyUpperChar) = false)
    (hf : sectionField st.1 k = []) (hc : st.2 ≠ some k) :
    sectionField (parseStep st line).1 k = [] ∧ (parseStep st line).2 ≠ some k := by
  simp only [parseStep]
  by_cases h0 : pyStrip line = []
  · simp only [if_pos h0]
    exact ⟨hf, hc⟩
  · simp only [if_neg h0]
    by_cases h1 : containsSub "WHY IT LOOKED GOOD".data
        ((pyStrip line).map pyUpperChar) = true
    · simp only [if_pos h1]
      refine ⟨hf, fun hk => ?_⟩
      cases Option.some.inj hk
      simp only [sectionLabel] at hline
      rw [hline] at h1
      exact Bool.noConfusion h1
    · simp only [if_neg h1]
      by_cases h2 : containsSub "WHY IT FAILED".data
          ((pyStrip line).map pyUpperChar) = true
      · simp only [if_pos h2]
        refine ⟨hf, fun hk => ?_⟩
        cases Option.some.inj hk
        simp only [sectionLabel] at hline
        rw [hline] at h2
        exact Bool.noConfusion h2
      · simp only [if_neg h2]
        by_cases h3 : containsSub "CONCEPT".data
            ((pyStrip line).map pyUpperChar) = true
        · simp only [if_pos h3]
          refine ⟨hf, fun hk => ?_⟩
          cases Option.some.inj hk
          simp only [sectionLabel] at hline
          rw [hline] at h3
          exact Bool.noConfusion h3
        · simp only [if_neg h3]
          by_cases h4 : containsSub "PATTERN".data
              ((pyStrip line).map pyUpperChar) = true
          · simp only [if_pos h4]
            refine ⟨hf, fun hk => ?_⟩
            cases Option.some.inj hk
            simp only [sectionLabel] at hline
            rw [hline] at h4
            exact Bool.noConfusion h4
          · simp only [if_neg h4]
            cases hst : st.2 with
            | none =>
              simp only
              exact ⟨hf, hst ▸ hc⟩
            | some k' =>
              simp only
              have hk' : k' ≠ k := fun he => hc (he ▸ hst)
              refine ⟨?_, fun he => hk' (Option.some.inj he)⟩
              rw [sectionField_appendLine_ne st.1 k k' _ hk']
              exact hf

/-- The whole loop preserves "section `k` is empty and not current" when no
line contains `k`'s label. -/
theorem parseLoop_invariant (k : SectionKey) :
    ∀ (lines : List (List Char)) (st : Sections × Option SectionKey),
      (∀ line ∈ lines,
        containsSub (sectionLabel k) ((pyStrip line).map pyUpperChar) = false) →
      sectionField st.1 k = [] → st.2 ≠ some k →
      sectionField (List.foldl parseStep st lines).1 k = [] := by
  intro lines
  induction lines with
  | nil =>
    intro st h hf hc
    exact hf
  | cons line rest ih =>
    intro st h hf hc
    have hstep := parseStep_preserves k st line (h line (List.mem_cons_self _ _)) hf hc
    exact ih _ (fun l hl => h l (List.mem_cons_of_mem _ hl)) hstep.1 hstep.2

/-- C8: `_parse_response` is total — every input string yields an Explanation
— and tolerant: whenever no (stripped, uppercased) line of the response
contains a given section's label, that section's field of the result is the
empty string, for each of the four sections. -/
theorem parse_response_tolerant (response : String) :
    (∃ e : Explanation, parseResponse response = e) ∧
    ((∀ line ∈ pySplitLines (pyStrip response.data),
        containsSub "WHY IT LOOKED GOOD".data ((pyStrip line).map pyUpperChar) = false) →
      (parseResponse response).why_good = "") ∧
    ((∀ line ∈ pySplitLines (pyStrip response.data),
        containsSub "WHY IT FAILED".data ((pyStrip line).map pyUpperChar) = false) →
      (parseResponse response).why_failed = "") ∧
    ((∀ line ∈ pySplitLines (pyStrip response.data),
        containsSub "CONCEPT".data ((pyStrip line).map pyUpperChar) = false) →
      (parseResponse response).concept_involved = "") ∧
    ((∀ line ∈ pySplitLines (pyStrip response.data),
        containsSub "PATTERN".data ((pyStrip line).map pyUpperChar) = false) →
      (parseResponse response).typical_pattern = "") := by
  refine ⟨⟨parseResponse response, rfl⟩, fun h => ?_, fun h => ?_, fun h => ?_, fun h => ?_⟩
  · have := parseLoop_invariant SectionKey.whyLookedGood
      (pySplitLines (pyStrip response.data)) (⟨[], [], [], []⟩, none)
      (by simpa [sectionLabel] using h) rfl (by simp)
    simpa [parseResponse, sectionField] using congrArg String.mk this
  · have := parseLoop_invariant SectionKey.whyFailed
      (pySplitLines (pyStrip response.data)) (⟨[], [], [], []⟩, none)
      (by simpa [sectionLabel] using h) rfl (by simp)
    simpa [parseResponse, sectionField] using congrArg String.mk this
  · have := parseLoop_invariant SectionKey.conceptInvolved
      (pySplitLines (pyStrip response.data)) (⟨[], [], [], []⟩, none)
      (by simpa [sectionLabel] using h) rfl (by simp)
    simpa [parseResponse, sectionField] using congrArg String.mk this
  · have := parseLoop_invariant SectionKey.typicalPattern
      (pySplitLines (pyStrip response.data)) (⟨[], [], [], []⟩, none)
      (by simpa [sectionLabel] using h) rfl (by simp)
    simpa [parseResponse, sectionField] using congrArg String.mk this

/-- Witness for C8: a two-line response with no section labels parses to an
Explanation with all four fields empty. -/
theorem parse_response_tolerant_witness :
    (parseResponse "hello\nworld").why_good = "" ∧
    (parseResponse "hello\nworld").why_failed = "" ∧
    (parseResponse "hello\nworld").concept_involved = "" ∧
    (parseResponse "hello\nworld").typical_pattern = "" :=
  ⟨(parse_response_tolerant "hello\nworld").2.1 (by decide),
   (parse_response_tolerant "hello\nworld").2.2.1 (by decide),
   (parse_response_tolerant "hello\nworld").2.2.2.1 (by decide),
   (parse_response_tolerant "hello\nworld").2.2.2.2 (by decide)⟩

end Praxis
